import Mathlib

/-!
Shallow embedding of `src/isshc/isshc.py` (module `isshc`): the interactive
SSH receive loop `InteractiveSSHClient.recv_text`, the write primitive
`InteractiveSSHClient.send_text`, and the helpers `_try_decode` and
`_find_pattern`.

Modelling conventions:
* Bytes and Unicode code points are natural numbers; Python `str` values are
  lists of code points, Python `bytes`/`bytearray` values are lists of bytes.
* The configured encoding is the instance default `"utf-8"`; the strict and
  replacing decoders below follow CPython's UTF-8 codec (the `"strict"` and
  `"replace"` error handlers).
* The paramiko channel, `select.select` and `datetime.now` are the external
  world: a state type `σ` together with a record `Env σ` of the operations the
  source invokes on it (`closed`, `select`-based readiness wait, `recv_ready`,
  `recv`, `send`, and the clock).  `re.search` is likewise a field of `Env`;
  for concrete runs it is instantiated with literal substring search, which is
  `re.search`'s behaviour on the metacharacter-free patterns the claims use.
* The two unbounded `while` loops of `recv_text` take fuel; running out of
  fuel is a distinguished outcome, never a result the source could produce.
* Every call into the external world is also recorded in a ghost trace of
  `Event`s, including a ghost `decoded` event at each successful strict
  decode, so that "the write primitive is invoked exactly once", "no I/O
  occurs" and "all text decoded so far" are statable.
-/

namespace Isshc

/-- A UTF-8 continuation byte: `0x80 ≤ b < 0xC0`. -/
def Cont (b : Nat) : Prop := 0x80 ≤ b ∧ b < 0xC0

instance (b : Nat) : Decidable (Cont b) := by
  unfold Cont; exact inferInstance

/-- Constraint on the first continuation byte `b1` after a three-byte lead
`b0 ∈ [0xE0, 0xEF]`: besides being a continuation byte, leads `0xE0`/`0xED`
restrict it further (ruling out overlong forms and surrogates). -/
def Cont3 (b0 b1 : Nat) : Prop :=
  0x80 ≤ b1 ∧ b1 < 0xC0 ∧ (b0 = 0xE0 → 0xA0 ≤ b1) ∧ (b0 = 0xED → b1 < 0xA0)

instance (b0 b1 : Nat) : Decidable (Cont3 b0 b1) := by
  unfold Cont3; exact inferInstance

/-- Constraint on the first continuation byte `b1` after a four-byte lead
`b0 ∈ [0xF0, 0xF4]`: leads `0xF0`/`0xF4` restrict it further (ruling out
overlong forms and code points above `0x10FFFF`). -/
def Cont4 (b0 b1 : Nat) : Prop :=
  0x80 ≤ b1 ∧ b1 < 0xC0 ∧ (b0 = 0xF0 → 0x90 ≤ b1) ∧ (b0 = 0xF4 → b1 < 0x90)

instance (b0 b1 : Nat) : Decidable (Cont4 b0 b1) := by
  unfold Cont4; exact inferInstance

/-- Strict UTF-8 decoding, CPython's `bytes.decode("utf-8", "strict")`:
`some` code points on success, `none` when the byte sequence is invalid or
ends in the middle of a multi-byte sequence. -/
def utf8Decode? : List Nat → Option (List Nat)
  | [] => some []
  | b0 :: rest =>
    if b0 < 0x80 then
      (utf8Decode? rest).map (fun t => b0 :: t)
    else if b0 < 0xC2 then
      none
    else if b0 < 0xE0 then
      match rest with
      | [] => none
      | b1 :: rest2 =>
        if Cont b1 then
          (utf8Decode? rest2).map (fun t => ((b0 - 0xC0) * 64 + (b1 - 0x80)) :: t)
        else none
    else if b0 < 0xF0 then
      match rest with
      | [] => none
      | b1 :: rest2 =>
        match rest2 with
        | [] => none
        | b2 :: rest3 =>
          if Cont3 b0 b1 ∧ Cont b2 then
            (utf8Decode? rest3).map
              (fun t => ((b0 - 0xE0) * 4096 + (b1 - 0x80) * 64 + (b2 - 0x80)) :: t)
          else none
    else if b0 < 0xF5 then
      match rest with
      | [] => none
      | b1 :: rest2 =>
        match rest2 with
        | [] => none
        | b2 :: rest3 =>
          match rest3 with
          | [] => none
          | b3 :: rest4 =>
            if Cont4 b0 b1 ∧ Cont b2 ∧ Cont b3 then
              (utf8Decode? rest4).map
                (fun t =>
                  ((b0 - 0xF0) * 262144 + (b1 - 0x80) * 4096 + (b2 - 0x80) * 64
                    + (b3 - 0x80)) :: t)
            else none
    else none

/-- Worker for `utf8DecodeReplace`; the `Nat` argument is fuel (at least the
list length at every call, so the fuel-exhausted case is unreachable).  Each
step consumes the maximal subpart of a sequence that is invalid or, for a
well-formed sequence, the whole sequence. -/
def utf8DecodeReplaceAux : Nat → List Nat → List Nat
  | _, [] => []
  | 0, _ :: _ => []
  | n + 1, b0 :: rest =>
    if b0 < 0x80 then
      b0 :: utf8DecodeReplaceAux n rest
    else if b0 < 0xC2 then
      0xFFFD :: utf8DecodeReplaceAux n rest
    else if b0 < 0xE0 then
      match rest with
      | b1 :: rest2 =>
        if Cont b1 then
          ((b0 - 0xC0) * 64 + (b1 - 0x80)) :: utf8DecodeReplaceAux n rest2
        else 0xFFFD :: utf8DecodeReplaceAux n (b1 :: rest2)
      | [] => [0xFFFD]
    else if b0 < 0xF0 then
      match rest with
      | b1 :: rest2 =>
        if Cont3 b0 b1 then
          match rest2 with
          | b2 :: rest3 =>
            if Cont b2 then
              ((b0 - 0xE0) * 4096 + (b1 - 0x80) * 64 + (b2 - 0x80))
                :: utf8DecodeReplaceAux n rest3
            else 0xFFFD :: utf8DecodeReplaceAux n (b2 :: rest3)
          | [] => [0xFFFD]
        else 0xFFFD :: utf8DecodeReplaceAux n (b1 :: rest2)
      | [] => [0xFFFD]
    else if b0 < 0xF5 then
      match rest with
      | b1 :: rest2 =>
        if Cont4 b0 b1 then
          match rest2 with
          | b2 :: rest3 =>
            if Cont b2 then
              match rest3 with
              | b3 :: rest4 =>
                if Cont b3 then
                  ((b0 - 0xF0) * 262144 + (b1 - 0x80) * 4096 + (b2 - 0x80) * 64
                    + (b3 - 0x80)) :: utf8DecodeReplaceAux n rest4
                else 0xFFFD :: utf8DecodeReplaceAux n (b3 :: rest4)
              | [] => [0xFFFD]
            else 0xFFFD :: utf8DecodeReplaceAux n (b2 :: rest3)
          | [] => [0xFFFD]
        else 0xFFFD :: utf8DecodeReplaceAux n (b1 :: rest2)
      | [] => [0xFFFD]
    else 0xFFFD :: utf8DecodeReplaceAux n rest

/-- Lenient UTF-8 decoding, CPython's `bytes.decode("utf-8", "replace")`:
each maximal subpart of an ill-formed subsequence becomes one `U+FFFD`. -/
def utf8DecodeReplace (bs : List Nat) : List Nat :=
  utf8DecodeReplaceAux bs.length bs

/-- UTF-8 encoding of one Unicode scalar value (CPython `str.encode("utf-8")`,
one character). -/
def utf8EncodeChar (c : Nat) : List Nat :=
  if c < 0x80 then [c]
  else if c < 0x800 then [0xC0 + c / 64, 0x80 + c % 64]
  else if c < 0x10000 then
    [0xE0 + c / 4096, 0x80 + c / 64 % 64, 0x80 + c % 64]
  else
    [0xF0 + c / 262144, 0x80 + c / 4096 % 64, 0x80 + c / 64 % 64,
      0x80 + c % 64]

/-- UTF-8 encoding of a text, CPython `str.encode("utf-8")`. -/
def utf8Encode (cs : List Nat) : List Nat := (cs.map utf8EncodeChar).flatten

/-- A Unicode scalar value: a code point below `0x110000` that is not a
surrogate.  Exactly these occur in Python `str` values that `"utf-8"` can
encode. -/
def ValidScalar (c : Nat) : Prop :=
  c < 0x110000 ∧ ¬ (0xD800 ≤ c ∧ c < 0xE000)

instance (c : Nat) : Decidable (ValidScalar c) := by
  unfold ValidScalar; exact inferInstance

end Isshc

namespace Isshc

/-- `_try_decode(data, encoding)` for the default encoding `"utf-8"`: strict
decode, `None` (here `none`) on `UnicodeDecodeError`. -/
def try_decode (data : List Nat) : Option (List Nat) := utf8Decode? data

/-- `_find_pattern(patterns, text)`: the first pattern (in iteration order)
for which `re.search(pattern, text)` matches, else `None`.  The regex-search
primitive is a parameter `search`. -/
def find_pattern (search : List Nat → List Nat → Bool)
    (patterns : List (List Nat)) (text : List Nat) : Option (List Nat) :=
  patterns.find? (fun pattern => search pattern text)

/-- Python dictionary lookup `d[k]` over an insertion-ordered association
list (`None` for a missing key, standing for `KeyError`). -/
def dictGet (d : List (List Nat × List Nat)) (k : List Nat) :
    Option (List Nat) :=
  (d.find? (fun kv => kv.1 = k)).map (fun kv => kv.2)

/-- Python truthiness of an `Optional[str]`: `None` and the empty string are
falsy.  `recv_text` tests the result of `_find_pattern` with
`if auto_reply := ...:` and `if prompt := ...:`, so a matched empty pattern
is treated like no match. -/
def truthyStr : Option (List Nat) → Option (List Nat)
  | some [] => none
  | o => o

/-- `re.search` for a pattern without regex metacharacters: does the pattern
occur as a contiguous substring of the text?  Used to instantiate the search
parameter on concrete runs (all patterns in the claims are literal). -/
def literalSearch (pattern text : List Nat) : Bool :=
  (List.range (text.length + 1)).any
    (fun i => (text.drop i).take pattern.length == pattern)

/-- Python's `max(0, x)`, written out so that it evaluates by kernel
reduction.  Times and durations are modeled as exact integer seconds: the
source uses floats, whose rounding behaviour none of the claims depend on. -/
def pymax0 (x : ℤ) : ℤ := if 0 ≤ x then x else 0

theorem pymax0_eq_max (x : ℤ) : pymax0 x = max 0 x := by
  rw [pymax0, max_def]

/-- The operations `recv_text`/`send_text` perform on the outside world (the
paramiko channel, `select.select`, `datetime.now`, `re.search`), over an
opaque world state `σ`.  Each operation may advance the world, and the clock
is read off the world state. -/
structure Env (σ : Type) where
  /-- `datetime.now()`, in seconds -/
  now : σ → ℤ
  /-- the channel's `closed` attribute -/
  closed : σ → Bool
  /-- `_wait_recv_ready(channel, timeout)`: `select.select` bounded by the
  given timeout; `False` on timeout -/
  waitRecvReady : ℤ → σ → Bool × σ
  /-- the channel's `recv_ready()` -/
  recvReady : σ → Bool
  /-- the channel's `recv(nbytes)` -/
  recv : Int → σ → List Nat × σ
  /-- the channel's `send(bytes)`: returns the number of bytes accepted -/
  send : List Nat → σ → Nat × σ
  /-- `re.search(pattern, text) is not None` -/
  search : List Nat → List Nat → Bool

/-- The `InteractiveSSHClient` instance configuration visible to `recv_text`
and `send_text`.  `hasSession` models `self._session is not None`;
`hasObserver` models `self.on_recv_partial_text` being set.  The encoding is
the default `"utf-8"`. -/
structure Client where
  auto_replies : Option (List (List Nat × List Nat))
  prompts : Option (List (List Nat))
  recv_nbytes : Int
  recv_timeout : ℤ
  hasObserver : Bool
  hasSession : Bool
deriving DecidableEq

/-- Ghost trace of externally visible actions of one `recv_text`/`send_text`
call.  `decoded` marks a successful strict decode of the whole receive
buffer (the bytes consumed and the text produced); it is instrumentation,
not an I/O action. -/
inductive Event where
  | waitCall (timeout : ℤ) (ready : Bool)
  | recvCall (nbytes : Int) (bytes : List Nat)
  | sendCall (bytes : List Nat) (accepted : Nat)
  | observerCall (text : List Nat)
  | decoded (bytes : List Nat) (text : List Nat)
deriving DecidableEq

/-- The per-call mutable loop state of `recv_text` (lines 174-177). -/
structure LoopSt where
  wait_start_time : ℤ
  recv_buffer : List Nat
  text_buffer : List Nat
  text_archived : List Nat
deriving DecidableEq

/-- Result of `send_text`: `notConnected` is the `RuntimeError` raised when
`self._session is None`. -/
inductive SendResult (σ : Type) where
  | sent (accepted : Nat) (s : σ) (tr : List Event)
  | notConnected
deriving DecidableEq

/-- `InteractiveSSHClient.send_text(text)`: raise if no session, else encode
with the configured encoding and hand the bytes to the channel, returning the
byte count the channel reports. -/
def send_text {σ : Type} (env : Env σ) (c : Client) (text : List Nat)
    (s : σ) : SendResult σ :=
  if c.hasSession then
    let r := env.send (utf8Encode text) s
    .sent r.1 r.2 [Event.sendCall (utf8Encode text) r.1]
  else .notConnected

/-- The inner drain loop of `recv_text` (lines 191-192):
`while recv_ready(): recv_buffer.extend(recv(recv_nbytes))`.  Fueled;
`none` means the fuel ran out before `recv_ready()` went false. -/
def drain {σ : Type} (env : Env σ) (nbytes : Int) :
    Nat → σ → Option (List Nat × σ × List Event)
  | 0, _ => none
  | fuel + 1, s =>
    if env.recvReady s then
      let r := env.recv nbytes s
      match drain env nbytes fuel r.2 with
      | none => none
      | some (bs, s', tr) =>
        some (r.1 ++ bs, s', Event.recvCall nbytes r.1 :: tr)
    else some ([], s, [])

/-- Outcome of one pass of the `while True` loop of `recv_text`:
`next` = the pass ended in `continue` (or fell through to the next
iteration), `broke` = `break` (channel closed or timeout), `ret` = `return`
with a matched prompt, `raised` = an exception propagated out of the pass,
`nofuel` = the inner drain loop ran out of fuel. -/
inductive PassOut (σ : Type) where
  | next (st : LoopSt) (s : σ) (tr : List Event)
  | broke (st : LoopSt) (s : σ) (tr : List Event)
  | ret (text : List Nat) (prompt : List Nat) (s : σ) (tr : List Event)
  | raised (s : σ) (tr : List Event)
  | nofuel
deriving DecidableEq

/-- One pass of the `while True` loop of `recv_text` (lines 178-215),
executed from loop state `st` and world `s`. -/
def loopPass {σ : Type} (env : Env σ) (c : Client)
    (auto_replies : List (List Nat × List Nat)) (prompts : List (List Nat))
    (drainFuel : Nat) (st : LoopSt) (s : σ) : PassOut σ :=
  if !c.hasSession || env.closed s then
    .broke { st with text_archived := st.text_archived ++ st.text_buffer } s []
  else
    let elapsed := env.now s - st.wait_start_time
    let timeout_remaining := pymax0 (c.recv_timeout - elapsed)
    let w := env.waitRecvReady timeout_remaining s
    if !w.1 then
      .broke { st with text_archived := st.text_archived ++ st.text_buffer }
        w.2 [Event.waitCall timeout_remaining false]
    else
      match drain env c.recv_nbytes drainFuel w.2 with
      | none => .nofuel
      | some (bs, s2, trd) =>
        let tr0 := Event.waitCall timeout_remaining true :: trd
        let buf := st.recv_buffer ++ bs
        match try_decode buf with
        | none => .next { st with recv_buffer := buf } s2 tr0
        | some decoded =>
          let tr1 := tr0
            ++ (if c.hasObserver then [Event.observerCall decoded] else [])
            ++ [Event.decoded buf decoded]
          let tb := st.text_buffer ++ decoded
          match truthyStr
              (find_pattern env.search (auto_replies.map Prod.fst) tb) with
          | some auto_reply =>
            match dictGet auto_replies auto_reply with
            | none => .raised s2 tr1
            | some reply_text =>
              match send_text env c reply_text s2 with
              | .notConnected => .raised s2 tr1
              | .sent _ s3 trs =>
                .next
                  { wait_start_time := env.now s3
                    recv_buffer := []
                    text_buffer := []
                    text_archived := st.text_archived ++ tb }
                  s3 (tr1 ++ trs)
          | none =>
            match truthyStr (find_pattern env.search prompts tb) with
            | some prompt =>
              .ret (st.text_archived ++ tb) prompt s2 tr1
            | none =>
              .next { st with recv_buffer := [], text_buffer := tb } s2 tr1

/-- The code after the `while` loop of `recv_text` (lines 217-222): decode
an unresolved remainder leniently, notify the observer, return. -/
def finishRecv {σ : Type} (c : Client) (st : LoopSt) (s : σ) :
    (List Nat × Option (List Nat)) × σ × List Event :=
  if st.recv_buffer = [] then
    ((st.text_archived ++ st.text_buffer, none), s, [])
  else
    let text_broken := utf8DecodeReplace st.recv_buffer
    ((st.text_archived ++ st.text_buffer ++ text_broken, none), s,
      if c.hasObserver then [Event.observerCall text_broken] else [])

/-- Overall result of a `recv_text` call.  `valueError` is the fail-fast
`ValueError` on a non-positive `recv_nbytes` or `recv_timeout`;
`outOfFuel` only reports exhaustion of the loop fuel of this embedding. -/
inductive RecvOutcome where
  | ok (text : List Nat) (prompt : Option (List Nat))
  | valueError
  | raised
  | outOfFuel
deriving DecidableEq

/-- The `while True` loop of `recv_text`, fueled. -/
def runLoop {σ : Type} (env : Env σ) (c : Client)
    (auto_replies : List (List Nat × List Nat)) (prompts : List (List Nat))
    (drainFuel : Nat) : Nat → LoopSt → σ → RecvOutcome × σ × List Event
  | 0, _, s => (.outOfFuel, s, [])
  | fuel + 1, st, s =>
    match loopPass env c auto_replies prompts drainFuel st s with
    | .next st' s' tr =>
      let r := runLoop env c auto_replies prompts drainFuel fuel st' s'
      (r.1, r.2.1, tr ++ r.2.2)
    | .broke st' s' tr =>
      let r := finishRecv c st' s'
      (.ok r.1.1 r.1.2, r.2.1, tr ++ r.2.2)
    | .ret text prompt s' tr => (.ok text (some prompt), s', tr)
    | .raised s' tr => (.raised, s', tr)
    | .nofuel => (.outOfFuel, s, [])

/-- `InteractiveSSHClient.recv_text(auto_replies, prompts)` (lines 142-222):
validate the configuration, resolve the argument defaults, then run the
receive loop from a fresh loop state whose deadline reference point is the
current time. -/
def recv_text {σ : Type} (env : Env σ) (c : Client)
    (auto_replies : Option (List (List Nat × List Nat)))
    (prompts : Option (List (List Nat)))
    (fuel drainFuel : Nat) (s : σ) : RecvOutcome × σ × List Event :=
  if c.recv_nbytes ≤ 0 then (.valueError, s, [])
  else if c.recv_timeout ≤ 0 then (.valueError, s, [])
  else
    let ar := auto_replies.getD (c.auto_replies.getD [])
    let pr := prompts.getD (c.prompts.getD [])
    runLoop env c ar pr drainFuel fuel
      { wait_start_time := env.now s
        recv_buffer := []
        text_buffer := []
        text_archived := [] } s

/-- The states reached at the pass boundaries of the `recv_text` loop: `n`
completed passes that all continued, together with the trace so far.  `none`
when some earlier pass ended the loop (or ran out of drain fuel). -/
def passStates {σ : Type} (env : Env σ) (c : Client)
    (auto_replies : List (List Nat × List Nat)) (prompts : List (List Nat))
    (drainFuel : Nat) : Nat → LoopSt → σ → Option (LoopSt × σ × List Event)
  | 0, st, s => some (st, s, [])
  | n + 1, st, s =>
    match passStates env c auto_replies prompts drainFuel n st s with
    | some (st', s', tr) =>
      match loopPass env c auto_replies prompts drainFuel st' s' with
      | .next st'' s'' tr' => some (st'', s'', tr ++ tr')
      | _ => none
    | none => none

/-- The trace of a single pass outcome. -/
def passTrace {σ : Type} : PassOut σ → List Event
  | .next _ _ tr => tr
  | .broke _ _ tr => tr
  | .ret _ _ _ tr => tr
  | .raised _ tr => tr
  | .nofuel => []

/-- All bytes read off the channel in a trace, in order. -/
def recvBytesOf (tr : List Event) : List Nat :=
  (tr.map (fun e => match e with | .recvCall _ bs => bs | _ => [])).flatten

/-- All text produced by successful strict decodes in a trace, in order. -/
def decodedTextOf (tr : List Event) : List Nat :=
  (tr.map (fun e => match e with | .decoded _ t => t | _ => [])).flatten

/-- All bytes consumed by successful strict decodes in a trace, in order. -/
def decodedBytesOf (tr : List Event) : List Nat :=
  (tr.map (fun e => match e with | .decoded bs _ => bs | _ => [])).flatten

/-- The write calls of a trace: the byte strings handed to the channel's
`send`. -/
def sendsOf (tr : List Event) : List (List Nat) :=
  tr.filterMap (fun e => match e with | .sendCall bs _ => some bs | _ => none)

/-- The observer invocations of a trace. -/
def observerCallsOf (tr : List Event) : List (List Nat) :=
  tr.filterMap
    (fun e => match e with | .observerCall t => some t | _ => none)

/-! ### Concrete worlds for witnesses -/

/-- A world whose channel is already closed: readiness never fires, reads
return nothing, the clock stands still. -/
def closedChannelEnv : Env Unit where
  now := fun _ => 0
  closed := fun _ => true
  waitRecvReady := fun _ s => (false, s)
  recvReady := fun _ => false
  recv := fun _ s => ([], s)
  send := fun _ s => (0, s)
  search := literalSearch

/-- A world whose channel is open but never becomes readable: every
readiness wait times out. -/
def silentChannelEnv : Env Unit where
  now := fun _ => 0
  closed := fun _ => false
  waitRecvReady := fun _ s => (false, s)
  recvReady := fun _ => false
  recv := fun _ s => ([], s)
  send := fun _ s => (0, s)
  search := literalSearch

/-- Channel for the C5 counterexample: a single byte `p` is readable once;
the channel stays open and silent afterwards. -/
def emptyPatternEnv : Env Nat where
  now := fun _ => 0
  closed := fun _ => false
  waitRecvReady := fun _ s => (s == 0, s)
  recvReady := fun s => s == 0
  recv := fun _ s => if s = 0 then ([0x70], 1) else ([], s)
  send := fun bs s => (bs.length, s)
  search := literalSearch

/-- Scripted channel for the decode-fragmentation scenario: in phase `0`
the first `k` bytes of the character\'s encoding are readable; after one
more readiness wait (phase `1` to `2`) the remaining bytes are; phase `3`
is drained.  The channel never closes. -/
def splitEnv (c k : Nat) : Env Nat where
  now := fun _ => 0
  closed := fun _ => false
  waitRecvReady := fun _ s => if s = 1 then (true, 2) else (s == 0 || s == 2, s)
  recvReady := fun s => s == 0 || s == 2
  recv := fun _ s =>
    if s = 0 then ((utf8EncodeChar c).take k, 1)
    else if s = 2 then ((utf8EncodeChar c).drop k, 3)
    else ([], s)
  send := fun bs s => (bs.length, s)
  search := literalSearch

/-- Client for the decode-fragmentation scenario: the single prompt
pattern is the character itself (defaults otherwise). -/
def fragClient (c : Nat) : Client where
  auto_replies := none
  prompts := some [[c]]
  recv_nbytes := 1024
  recv_timeout := 30
  hasObserver := false
  hasSession := true

/-- The configuration of a freshly constructed `InteractiveSSHClient` with
an open session: all attributes at their `__init__` defaults. -/
def defaultClient : Client where
  auto_replies := none
  prompts := none
  recv_nbytes := 1024
  recv_timeout := 30
  hasObserver := false
  hasSession := true

/-! ### Concrete data for the auto-reply round-trip scenario -/

/-- The code points of the text `Password:`. -/
def passwordText : List Nat :=
  [0x50, 0x61, 0x73, 0x73, 0x77, 0x6F, 0x72, 0x64, 0x3A]

/-- The code points of the text `prompt>`. -/
def promptText : List Nat := [0x70, 0x72, 0x6F, 0x6D, 0x70, 0x74, 0x3E]

/-- The code points of the reply text `secret` followed by a newline. -/
def secretText : List Nat := [0x73, 0x65, 0x63, 0x72, 0x65, 0x74, 0x0A]

/-- Scripted channel for the auto-reply round-trip: in phase `0` the bytes
of `Password:` are readable; phase `1` has no readable data until the reply
is written to the channel, which moves it to phase `2`, where the bytes of
`prompt>` are readable; phase `3` is drained.  The channel never closes and
the clock stands still. -/
def roundTripEnv : Env Nat where
  now := fun _ => 0
  closed := fun _ => false
  waitRecvReady := fun _ s => (s == 0 || s == 2, s)
  recvReady := fun s => s == 0 || s == 2
  recv := fun _ s =>
    if s = 0 then (passwordText, 1)
    else if s = 2 then (promptText, 3)
    else ([], s)
  send := fun bs s => (bs.length, if s = 1 then 2 else s)
  search := literalSearch

/-- Client configured with the auto-reply map `Password:` to `secret` plus
newline and prompt list `prompt>` (defaults otherwise). -/
def roundTripClient : Client where
  auto_replies := some [(passwordText, secretText)]
  prompts := some [promptText]
  recv_nbytes := 1024
  recv_timeout := 30
  hasObserver := false
  hasSession := true

section Sanity

example : utf8Decode? [0x68, 0x65, 0x6C, 0x6C, 0x6F] =
    some [0x68, 0x65, 0x6C, 0x6C, 0x6F] := by decide

example : utf8Decode? [0xFF, 0xFF] = none := by decide

example : utf8Decode? [0xE3, 0x81] = none := by decide

example : utf8Decode? [0xE3, 0x81, 0x82] = some [0x3042] := by decide

example : utf8DecodeReplace [0xFF, 0xFE, 0xFF, 0xFE] =
    [0xFFFD, 0xFFFD, 0xFFFD, 0xFFFD] := by decide

example : utf8DecodeReplace [0xE3, 0x81] = [0xFFFD] := by decide

example : utf8DecodeReplace [0xE3, 0x28] = [0xFFFD, 0x28] := by decide

example : utf8EncodeChar 0x3042 = [0xE3, 0x81, 0x82] := by decide

example : utf8Decode? (utf8EncodeChar 0x1F600) = some [0x1F600] := by decide

end Sanity

/-! ## Claim theorems -/

set_option maxRecDepth 4000

/-! ### Trace projection lemmas and the drain loop's trace -/

theorem recvBytesOf_cons (e : Event) (tr : List Event) :
    recvBytesOf (e :: tr) =
      (match e with | .recvCall _ bs => bs | _ => []) ++ recvBytesOf tr := by
  simp [recvBytesOf]

theorem decodedTextOf_cons (e : Event) (tr : List Event) :
    decodedTextOf (e :: tr) =
      (match e with | .decoded _ t => t | _ => []) ++ decodedTextOf tr := by
  simp [decodedTextOf]

theorem decodedBytesOf_cons (e : Event) (tr : List Event) :
    decodedBytesOf (e :: tr) =
      (match e with | .decoded bs _ => bs | _ => []) ++ decodedBytesOf tr := by
  simp [decodedBytesOf]

theorem recvBytesOf_append (a b : List Event) :
    recvBytesOf (a ++ b) = recvBytesOf a ++ recvBytesOf b := by
  simp [recvBytesOf]

theorem decodedTextOf_append (a b : List Event) :
    decodedTextOf (a ++ b) = decodedTextOf a ++ decodedTextOf b := by
  simp [decodedTextOf]

theorem decodedBytesOf_append (a b : List Event) :
    decodedBytesOf (a ++ b) = decodedBytesOf a ++ decodedBytesOf b := by
  simp [decodedBytesOf]

theorem drain_spec {σ : Type} (env : Env σ) (nb : Int) :
    ∀ (df : Nat) (s : σ) (bs : List Nat) (s' : σ) (tr : List Event),
      drain env nb df s = some (bs, s', tr) →
      recvBytesOf tr = bs ∧ decodedTextOf tr = [] ∧ decodedBytesOf tr = [] ∧
        ∀ e ∈ tr, ∃ n b, e = Event.recvCall n b := by
  intro df
  induction df with
  | zero =>
    intro s bs s' tr h
    simp [drain] at h
  | succ n ih =>
    intro s bs s' tr h
    simp only [drain] at h
    by_cases hr : env.recvReady s
    · rw [if_pos hr] at h
      cases hd : drain env nb n (env.recv nb s).2 with
      | none => rw [hd] at h; exact absurd h (by simp)
      | some x =>
        obtain ⟨bs2, s2, tr2⟩ := x
        rw [hd] at h
        simp only [Option.some.injEq, Prod.mk.injEq] at h
        obtain ⟨hbs, hs', htr⟩ := h
        obtain ⟨ih1, ih2, ih3, ih4⟩ := ih _ _ _ _ hd
        subst hbs hs' htr
        refine ⟨?_, ?_, ?_, ?_⟩
        · simp [recvBytesOf_cons, ih1]
        · simp [decodedTextOf_cons, ih2]
        · simp [decodedBytesOf_cons, ih3]
        · intro e he
          rcases List.mem_cons.mp he with he | he
          · exact ⟨nb, (env.recv nb s).1, he⟩
          · exact ih4 e he
    · rw [if_neg hr] at h
      simp only [Option.some.injEq, Prod.mk.injEq] at h
      obtain ⟨hbs, hs', htr⟩ := h
      subst hbs hs' htr
      simp [recvBytesOf, decodedTextOf, decodedBytesOf]

/-! ### Per-pass deadline lemmas (C2) -/

theorem waitCall_mem_head {t tmo : ℤ} {r b : Bool} (trd rest : List Event)
    (hmem : Event.waitCall t r ∈ Event.waitCall tmo b :: (trd ++ rest))
    (hdr : ∀ e ∈ trd, ∃ n bb, e = Event.recvCall n bb)
    (hrest : ∀ t' r', Event.waitCall t' r' ∉ rest) :
    t = tmo := by
  rcases List.mem_cons.mp hmem with h | h
  · injection h with h1 h2
  · rcases List.mem_append.mp h with h | h
    · obtain ⟨n, bb, he⟩ := hdr _ h
      simp at he
    · exact absurd h (hrest t r)

theorem pass_wait_timeout {σ : Type} (env : Env σ) (c : Client)
    (ar : List (List Nat × List Nat)) (pr : List (List Nat)) (df : Nat)
    (st : LoopSt) (s : σ) (t : ℤ) (r : Bool)
    (hmem : Event.waitCall t r ∈ passTrace (loopPass env c ar pr df st s)) :
    t = max 0 (c.recv_timeout - (env.now s - st.wait_start_time)) := by
  rw [← pymax0_eq_max]
  simp only [loopPass] at hmem
  split at hmem
  · simp [passTrace] at hmem
  · split at hmem
    · exact waitCall_mem_head [] []
        (by simpa [passTrace] using hmem) (by simp) (by simp)
    · split at hmem
      · simp [passTrace] at hmem
      · rename_i bs s2 trd heq
        have hdr := (drain_spec env c.recv_nbytes df _ _ _ _ heq).2.2.2
        split at hmem
        · exact waitCall_mem_head trd []
            (by simpa [passTrace] using hmem) hdr (by simp)
        · rename_i d heqd
          split at hmem
          · rename_i k heqk
            split at hmem
            · exact waitCall_mem_head trd
                ((if c.hasObserver then [Event.observerCall d] else [])
                  ++ [Event.decoded (st.recv_buffer ++ bs) d])
                (by simpa [passTrace] using hmem) hdr
                (by intro t' r' hx
                    rcases List.mem_append.mp hx with hx | hx
                    · split at hx <;> simp_all
                    · simp_all)
            · rename_i reply heqr
              split at hmem
              · exact waitCall_mem_head trd
                  ((if c.hasObserver then [Event.observerCall d] else [])
                    ++ [Event.decoded (st.recv_buffer ++ bs) d])
                  (by simpa [passTrace] using hmem) hdr
                  (by intro t' r' hx
                      rcases List.mem_append.mp hx with hx | hx
                      · split at hx <;> simp_all
                      · simp_all)
              · rename_i acc s3 trs heqs
                have htrs : trs =
                    [Event.sendCall (utf8Encode reply)
                      (env.send (utf8Encode reply) s2).1] := by
                  simp only [send_text] at heqs
                  split at heqs
                  · injection heqs with h1 h2 h3
                    exact h3.symm
                  · injection heqs
                subst htrs
                exact waitCall_mem_head trd
                  (((if c.hasObserver then [Event.observerCall d] else [])
                    ++ [Event.decoded (st.recv_buffer ++ bs) d])
                    ++ [Event.sendCall (utf8Encode reply)
                      (env.send (utf8Encode reply) s2).1])
                  (by simpa [passTrace] using hmem) hdr
                  (by intro t' r' hx
                      rcases List.mem_append.mp hx with hx | hx
                      · rcases List.mem_append.mp hx with hx | hx
                        · split at hx <;> simp_all
                        · simp_all
                      · simp_all)
          · split at hmem
            · exact waitCall_mem_head trd
                ((if c.hasObserver then [Event.observerCall d] else [])
                  ++ [Event.decoded (st.recv_buffer ++ bs) d])
                (by simpa [passTrace] using hmem) hdr
                (by intro t' r' hx
                    rcases List.mem_append.mp hx with hx | hx
                    · split at hx <;> simp_all
                    · simp_all)
            · exact waitCall_mem_head trd
                ((if c.hasObserver then [Event.observerCall d] else [])
                  ++ [Event.decoded (st.recv_buffer ++ bs) d])
                (by simpa [passTrace] using hmem) hdr
                (by intro t' r' hx
                    rcases List.mem_append.mp hx with hx | hx
                    · split at hx <;> simp_all
                    · simp_all)

theorem pass_wait_start_next {σ : Type} (env : Env σ) (c : Client)
    (ar : List (List Nat × List Nat)) (pr : List (List Nat)) (df : Nat)
    (st : LoopSt) (s : σ) (st' : LoopSt) (s' : σ) (tr : List Event)
    (h : loopPass env c ar pr df st s = .next st' s' tr)
    (hns : ∀ bs n, Event.sendCall bs n ∉ tr) :
    st'.wait_start_time = st.wait_start_time := by
  simp only [loopPass] at h
  split at h
  · injection h
  · split at h
    · injection h
    · split at h
      · injection h
      · rename_i bs s2 trd heq
        split at h
        · injection h with h1 h2 h3
          subst h1
          rfl
        · rename_i d heqd
          split at h
          · rename_i k heqk
            split at h
            · injection h
            · rename_i reply heqr
              split at h
              · injection h
              · rename_i acc s3 trs heqs
                injection h with h1 h2 h3
                exfalso
                have htrs : trs = [Event.sendCall (utf8Encode reply)
                    (env.send (utf8Encode reply) s2).1] := by
                  simp only [send_text] at heqs
                  split at heqs
                  · injection heqs with g1 g2 g3
                    exact g3.symm
                  · injection heqs
                apply hns (utf8Encode reply) (env.send (utf8Encode reply) s2).1
                rw [← h3, htrs]
                simp
          · split at h
            · injection h
            · injection h with h1 h2 h3
              subst h1
              rfl

theorem pass_wait_start_broke {σ : Type} (env : Env σ) (c : Client)
    (ar : List (List Nat × List Nat)) (pr : List (List Nat)) (df : Nat)
    (st : LoopSt) (s : σ) (st' : LoopSt) (s' : σ) (tr : List Event)
    (h : loopPass env c ar pr df st s = .broke st' s' tr) :
    st'.wait_start_time = st.wait_start_time := by
  simp only [loopPass] at h
  split at h
  · injection h with h1 h2 h3
    subst h1
    rfl
  · split at h
    · injection h with h1 h2 h3
      subst h1
      rfl
    · split at h
      · injection h
      · rename_i bs s2 trd heq
        split at h
        · injection h
        · rename_i d heqd
          split at h
          · rename_i k heqk
            split at h
            · injection h
            · rename_i reply heqr
              split at h
              · injection h
              · injection h
          · split at h
            · injection h
            · injection h

/-- C2: the deadline reference point (`wait_start_time`) is set to the
current time at call start and thereafter changes only in a pass whose
trace contains a write (an auto-reply being sent); every wait handed to the
readiness primitive equals `max 0 (recv_timeout - elapsed since the last
reset)`. -/
theorem deadline_reset_discipline {σ : Type} (env : Env σ) (c : Client)
    (ar : List (List Nat × List Nat)) (pr : List (List Nat)) (df : Nat)
    (st : LoopSt) (s : σ) :
    (∀ t r, Event.waitCall t r ∈ passTrace (loopPass env c ar pr df st s) →
        t = max 0 (c.recv_timeout - (env.now s - st.wait_start_time))) ∧
    (∀ st' s' tr, loopPass env c ar pr df st s = .next st' s' tr →
        (∀ bs n, Event.sendCall bs n ∉ tr) →
        st'.wait_start_time = st.wait_start_time) ∧
    (∀ st' s' tr, loopPass env c ar pr df st s = .broke st' s' tr →
        st'.wait_start_time = st.wait_start_time) ∧
    (∀ a p fuel, ¬ c.recv_nbytes ≤ 0 → ¬ c.recv_timeout ≤ 0 →
        recv_text env c a p fuel df s =
          runLoop env c (a.getD (c.auto_replies.getD []))
            (p.getD (c.prompts.getD [])) df fuel
            { wait_start_time := env.now s, recv_buffer := [],
              text_buffer := [], text_archived := [] } s) :=
  ⟨fun t r hm => pass_wait_timeout env c ar pr df st s t r hm,
   fun st' s' tr h hns => pass_wait_start_next env c ar pr df st s st' s' tr h hns,
   fun st' s' tr h => pass_wait_start_broke env c ar pr df st s st' s' tr h,
   fun a p fuel hn ht => by simp [recv_text, hn, ht]⟩

/-- Witness for C2: a pass that times out against a silent channel. -/
theorem deadline_reset_discipline_witness :
    (30 : ℤ) = max 0 (30 - (0 - 0)) ∧ (0 : ℤ) = 0 := by
  constructor
  · exact (deadline_reset_discipline silentChannelEnv defaultClient [] [] 1
      ⟨0, [], [], []⟩ ()).1 30 false (by decide)
  · exact (deadline_reset_discipline silentChannelEnv defaultClient [] [] 1
      ⟨0, [], [], []⟩ ()).2.2.1 ⟨0, [], [], []⟩ () [Event.waitCall 30 false]
      (by decide)

theorem truthyStr_some_ne {k : List Nat} (h : k ≠ []) :
    truthyStr (some k) = some k := by
  cases k with
  | nil => exact absurd rfl h
  | cons a l => rfl

/-- C5, counterexample to the claim as stated: with auto-reply map
`{"": "y"}` and prompt list `["p"]`, the decoded text buffer `p` matches
both the auto-reply pattern `""` (the empty pattern matches everywhere) and
the prompt pattern, yet the pass terminates the call with the prompt and no
reply is sent: Python's `if auto_reply := _find_pattern(...)` treats the
matched empty string as falsy. -/
theorem auto_reply_priority_counterexample :
    find_pattern literalSearch
        (([([], [0x79])] : List (List Nat × List Nat)).map Prod.fst)
        ([] ++ [0x70]) = some [] ∧
    find_pattern literalSearch [[0x70]] ([] ++ [0x70]) = some [0x70] ∧
    loopPass emptyPatternEnv defaultClient [([], [0x79])] [[0x70]] 2
        ⟨0, [], [], []⟩ 0 =
      .ret [0x70] [0x70] 1 [Event.waitCall 30 true,
        Event.recvCall 1024 [0x70], Event.decoded [0x70] [0x70]] := by
  decide

/-- C5 (amended): in every loop pass whose decoded text buffer matches
both some auto-reply pattern — with the first auto-reply match non-empty,
so that Python's truthiness test passes — and some prompt pattern, the
auto-reply is performed (reply sent, text archived, deadline reference
reset) and the loop continues: the pass does not classify prompts and does
not terminate the call. -/
theorem auto_reply_priority {σ : Type} (env : Env σ) (c : Client)
    (ar : List (List Nat × List Nat)) (pr : List (List Nat)) (df : Nat)
    (st : LoopSt) (s : σ) (s2 : σ) (bs : List Nat) (trd : List Event)
    (d k reply q : List Nat)
    (hcl : (!c.hasSession || env.closed s) = false)
    (hw : (env.waitRecvReady
      (pymax0 (c.recv_timeout - (env.now s - st.wait_start_time))) s).1 = true)
    (hd : drain env c.recv_nbytes df
      (env.waitRecvReady
        (pymax0 (c.recv_timeout - (env.now s - st.wait_start_time))) s).2 =
      some (bs, s2, trd))
    (hdec : try_decode (st.recv_buffer ++ bs) = some d)
    (hk : find_pattern env.search (ar.map Prod.fst) (st.text_buffer ++ d) =
      some k)
    (hkne : k ≠ [])
    (hreply : dictGet ar k = some reply)
    (_hq : find_pattern env.search pr (st.text_buffer ++ d) = some q) :
    loopPass env c ar pr df st s =
      .next
        { wait_start_time := env.now (env.send (utf8Encode reply) s2).2
          recv_buffer := []
          text_buffer := []
          text_archived := st.text_archived ++ st.text_buffer ++ d }
        (env.send (utf8Encode reply) s2).2
        ((Event.waitCall
            (pymax0 (c.recv_timeout - (env.now s - st.wait_start_time)))
            true :: trd)
          ++ (if c.hasObserver then [Event.observerCall d] else [])
          ++ [Event.decoded (st.recv_buffer ++ bs) d]
          ++ [Event.sendCall (utf8Encode reply)
              (env.send (utf8Encode reply) s2).1]) := by
  have hsess : c.hasSession = true := by
    revert hcl
    cases c.hasSession <;> simp
  have hclosed : env.closed s = false := by
    revert hcl
    cases env.closed s <;> simp
  simp [loopPass, hclosed, hw, hd, hdec, hk, truthyStr_some_ne hkne, hreply,
    send_text, hsess]

/-- Witness for C5: text `Password:` matches the auto-reply pattern
`Password:` and the prompt pattern `P`; the reply is sent and the loop
continues. -/
theorem auto_reply_priority_witness :
    loopPass roundTripEnv roundTripClient [(passwordText, secretText)]
        [[0x50]] 2 ⟨0, [], [], []⟩ 0 =
      .next ⟨0, [], [], passwordText⟩ 2
        [Event.waitCall 30 true, Event.recvCall 1024 passwordText,
         Event.decoded passwordText passwordText,
         Event.sendCall (utf8Encode secretText) 7] := by
  have h := auto_reply_priority roundTripEnv roundTripClient
    [(passwordText, secretText)] [[0x50]] 2 ⟨0, [], [], []⟩ 0 1 passwordText
    [Event.recvCall 1024 passwordText] passwordText passwordText secretText
    [0x50] (by decide) (by decide) (by decide) (by decide) (by decide)
    (by decide) (by decide) (by decide)
  simpa using h

/-! ### UTF-8 round-trip and fragmentation lemmas (C3) -/

theorem utf8EncodeChar_two (c : Nat) (h1 : 0x80 ≤ c) (h2 : c < 0x800) :
    utf8EncodeChar c = [0xC0 + c / 64, 0x80 + c % 64] := by
  unfold utf8EncodeChar
  rw [if_neg (by omega), if_pos (by omega)]

theorem utf8EncodeChar_three (c : Nat) (h1 : 0x800 ≤ c) (h2 : c < 0x10000) :
    utf8EncodeChar c = [0xE0 + c / 4096, 0x80 + c / 64 % 64, 0x80 + c % 64] := by
  unfold utf8EncodeChar
  rw [if_neg (by omega), if_neg (by omega), if_pos (by omega)]

theorem utf8EncodeChar_four (c : Nat) (h1 : 0x10000 ≤ c) :
    utf8EncodeChar c = [0xF0 + c / 262144, 0x80 + c / 4096 % 64,
      0x80 + c / 64 % 64, 0x80 + c % 64] := by
  unfold utf8EncodeChar
  rw [if_neg (by omega), if_neg (by omega), if_neg (by omega)]

theorem utf8Decode?_enc2 (c : Nat) (tail : List Nat) (h1 : 0x80 ≤ c)
    (h2 : c < 0x800) :
    utf8Decode? (utf8EncodeChar c ++ tail) =
      (utf8Decode? tail).map (fun t => c :: t) := by
  rw [utf8EncodeChar_two c h1 h2]
  show utf8Decode? ((0xC0 + c / 64) :: (0x80 + c % 64) :: tail) = _
  rw [utf8Decode?.eq_def]
  dsimp only
  rw [if_neg (by omega), if_neg (by omega), if_pos (by omega),
    if_pos (show Cont (0x80 + c % 64) by unfold Cont; omega)]
  have hc : (0xC0 + c / 64 - 0xC0) * 64 + (0x80 + c % 64 - 0x80) = c := by
    omega
  simp only [hc]

theorem utf8Decode?_enc3 (c : Nat) (tail : List Nat) (h1 : 0x800 ≤ c)
    (h2 : c < 0x10000) (hs : ¬ (0xD800 ≤ c ∧ c < 0xE000)) :
    utf8Decode? (utf8EncodeChar c ++ tail) =
      (utf8Decode? tail).map (fun t => c :: t) := by
  have e1 : c / 64 / 64 = c / 4096 := by
    rw [Nat.div_div_eq_div_mul]
  rw [utf8EncodeChar_three c h1 h2]
  show utf8Decode?
      ((0xE0 + c / 4096) :: (0x80 + c / 64 % 64) :: (0x80 + c % 64) :: tail)
      = _
  rw [utf8Decode?.eq_def]
  dsimp only
  rw [if_neg (by omega), if_neg (by omega), if_neg (by omega),
    if_pos (by omega),
    if_pos (show Cont3 (0xE0 + c / 4096) (0x80 + c / 64 % 64)
        ∧ Cont (0x80 + c % 64) by
      refine ⟨?_, by unfold Cont; omega⟩
      unfold Cont3
      omega)]
  have hc : (0xE0 + c / 4096 - 0xE0) * 4096 + (0x80 + c / 64 % 64 - 0x80) * 64
      + (0x80 + c % 64 - 0x80) = c := by
    omega
  simp only [hc]

theorem utf8Decode?_enc4 (c : Nat) (tail : List Nat) (h1 : 0x10000 ≤ c)
    (h2 : c < 0x110000) :
    utf8Decode? (utf8EncodeChar c ++ tail) =
      (utf8Decode? tail).map (fun t => c :: t) := by
  have e1 : c / 64 / 64 = c / 4096 := by
    rw [Nat.div_div_eq_div_mul]
  have e2 : c / 4096 / 64 = c / 262144 := by
    rw [Nat.div_div_eq_div_mul]
  rw [utf8EncodeChar_four c h1]
  show utf8Decode?
      ((0xF0 + c / 262144) :: (0x80 + c / 4096 % 64) :: (0x80 + c / 64 % 64)
        :: (0x80 + c % 64) :: tail) = _
  rw [utf8Decode?.eq_def]
  dsimp only
  rw [if_neg (by omega), if_neg (by omega), if_neg (by omega),
    if_neg (by omega), if_pos (by omega),
    if_pos (show Cont4 (0xF0 + c / 262144) (0x80 + c / 4096 % 64)
        ∧ Cont (0x80 + c / 64 % 64) ∧ Cont (0x80 + c % 64) by
      refine ⟨?_, by unfold Cont; omega, by unfold Cont; omega⟩
      unfold Cont4
      omega)]
  have hc : (0xF0 + c / 262144 - 0xF0) * 262144
      + (0x80 + c / 4096 % 64 - 0x80) * 4096
      + (0x80 + c / 64 % 64 - 0x80) * 64 + (0x80 + c % 64 - 0x80) = c := by
    omega
  simp only [hc]

theorem utf8Decode?_lead2_alone (b0 : Nat) (h1 : 0xC2 ≤ b0) (h2 : b0 < 0xE0) :
    utf8Decode? [b0] = none := by
  rw [utf8Decode?.eq_def]
  dsimp only
  rw [if_neg (by omega), if_neg (by omega), if_pos (by omega)]

theorem utf8Decode?_lead3_short (b0 : Nat) (rest : List Nat)
    (h1 : 0xE0 ≤ b0) (h2 : b0 < 0xF0) (hlen : rest.length ≤ 1) :
    utf8Decode? (b0 :: rest) = none := by
  rw [utf8Decode?.eq_def]
  dsimp only
  rw [if_neg (by omega), if_neg (by omega), if_neg (by omega),
    if_pos (by omega)]
  cases rest with
  | nil => rfl
  | cons b1 rest2 =>
    cases rest2 with
    | nil => rfl
    | cons b2 rest3 => simp at hlen

theorem utf8Decode?_lead4_short (b0 : Nat) (rest : List Nat)
    (h1 : 0xF0 ≤ b0) (h2 : b0 < 0xF5) (hlen : rest.length ≤ 2) :
    utf8Decode? (b0 :: rest) = none := by
  rw [utf8Decode?.eq_def]
  dsimp only
  rw [if_neg (by omega), if_neg (by omega), if_neg (by omega),
    if_neg (by omega), if_pos (by omega)]
  cases rest with
  | nil => rfl
  | cons b1 rest2 =>
    cases rest2 with
    | nil => rfl
    | cons b2 rest3 =>
      cases rest3 with
      | nil => rfl
      | cons b3 rest4 => simp at hlen

theorem utf8Decode?_encChar (c : Nat) (hv : ValidScalar c) :
    utf8Decode? (utf8EncodeChar c) = some [c] := by
  obtain ⟨hub, hsur⟩ := hv
  rcases Nat.lt_or_ge c 0x80 with h | h
  · unfold utf8EncodeChar
    rw [if_pos h, utf8Decode?.eq_def]
    dsimp only
    rw [if_pos h]
    rfl
  · rcases Nat.lt_or_ge c 0x800 with h8 | h8
    · have := utf8Decode?_enc2 c [] h h8
      rw [List.append_nil] at this
      simpa using this
    · rcases Nat.lt_or_ge c 0x10000 with h16 | h16
      · have := utf8Decode?_enc3 c [] h8 h16 hsur
        rw [List.append_nil] at this
        simpa using this
      · have := utf8Decode?_enc4 c [] h16 hub
        rw [List.append_nil] at this
        simpa using this

theorem utf8Decode?_take_enc (c k : Nat) (hv : ValidScalar c)
    (hk0 : 0 < k) (hk : k < (utf8EncodeChar c).length) :
    utf8Decode? ((utf8EncodeChar c).take k) = none := by
  rcases Nat.lt_or_ge c 0x80 with h | h
  · exfalso
    have he : utf8EncodeChar c = [c] := by
      unfold utf8EncodeChar
      rw [if_pos h]
    rw [he] at hk
    simp at hk
    omega
  · rcases Nat.lt_or_ge c 0x800 with h8 | h8
    · rw [utf8EncodeChar_two c h h8] at hk ⊢
      have hk1 : k = 1 := by
        simp at hk
        omega
      subst hk1
      show utf8Decode? [0xC0 + c / 64] = none
      exact utf8Decode?_lead2_alone _ (by omega) (by omega)
    · rcases Nat.lt_or_ge c 0x10000 with h16 | h16
      · rw [utf8EncodeChar_three c h8 h16] at hk ⊢
        have hk1 : k = 1 ∨ k = 2 := by
          simp at hk
          omega
        rcases hk1 with hk1 | hk1 <;> subst hk1
        · show utf8Decode? [0xE0 + c / 4096] = none
          exact utf8Decode?_lead3_short _ [] (by omega) (by omega) (by simp)
        · show utf8Decode? [0xE0 + c / 4096, 0x80 + c / 64 % 64] = none
          exact utf8Decode?_lead3_short _ [0x80 + c / 64 % 64] (by omega)
            (by omega) (by simp)
      · have hub : c < 0x110000 := hv.1
        rw [utf8EncodeChar_four c h16] at hk ⊢
        have hk1 : k = 1 ∨ k = 2 ∨ k = 3 := by
          simp at hk
          omega
        rcases hk1 with hk1 | hk1 | hk1 <;> subst hk1
        · show utf8Decode? [0xF0 + c / 262144] = none
          exact utf8Decode?_lead4_short _ [] (by omega) (by omega) (by simp)
        · show utf8Decode? [0xF0 + c / 262144, 0x80 + c / 4096 % 64] = none
          exact utf8Decode?_lead4_short _ [0x80 + c / 4096 % 64] (by omega)
            (by omega) (by simp)
        · show utf8Decode? [0xF0 + c / 262144, 0x80 + c / 4096 % 64,
            0x80 + c / 64 % 64] = none
          exact utf8Decode?_lead4_short _
            [0x80 + c / 4096 % 64, 0x80 + c / 64 % 64] (by omega) (by omega)
            (by simp)

/-! ### Single steps of the drain and receive loops -/

theorem drain_step_ready {σ : Type} (env : Env σ) (nb : Int) (fuel : Nat)
    (s : σ) (h : env.recvReady s = true) :
    drain env nb (fuel + 1) s =
      match drain env nb fuel (env.recv nb s).2 with
      | none => none
      | some (bs, s', tr) =>
        some ((env.recv nb s).1 ++ bs, s',
          Event.recvCall nb (env.recv nb s).1 :: tr) := by
  simp [drain, h]

theorem drain_step_idle {σ : Type} (env : Env σ) (nb : Int) (fuel : Nat)
    (s : σ) (h : env.recvReady s = false) :
    drain env nb (fuel + 1) s = some ([], s, []) := by
  simp [drain, h]

theorem runLoop_step_next {σ : Type} (env : Env σ) (c : Client)
    (ar : List (List Nat × List Nat)) (pr : List (List Nat)) (df : Nat)
    (st : LoopSt) (s : σ) (st' : LoopSt) (s' : σ) (tr : List Event)
    (h : loopPass env c ar pr df st s = .next st' s' tr) (fuel : Nat) :
    runLoop env c ar pr df (fuel + 1) st s =
      ((runLoop env c ar pr df fuel st' s').1,
        (runLoop env c ar pr df fuel st' s').2.1,
        tr ++ (runLoop env c ar pr df fuel st' s').2.2) := by
  simp [runLoop, h]

theorem runLoop_step_ret {σ : Type} (env : Env σ) (c : Client)
    (ar : List (List Nat × List Nat)) (pr : List (List Nat)) (df : Nat)
    (st : LoopSt) (s : σ) (text prompt : List Nat) (s' : σ) (tr : List Event)
    (h : loopPass env c ar pr df st s = .ret text prompt s' tr) (fuel : Nat) :
    runLoop env c ar pr df (fuel + 1) st s = (.ok text (some prompt), s', tr) := by
  simp [runLoop, h]

/-! ### The fragmentation scenario -/

theorem frag_drain1 (c k : Nat) :
    drain (splitEnv c k) 1024 3 0 =
      some ((utf8EncodeChar c).take k, 1,
        [Event.recvCall 1024 ((utf8EncodeChar c).take k)]) := by
  rw [show (3 : Nat) = 2 + 1 from rfl, drain_step_ready _ _ _ _ rfl,
    show (2 : Nat) = 1 + 1 from rfl, drain_step_idle _ _ _ _ rfl]
  simp [splitEnv]

theorem frag_drain2 (c k : Nat) :
    drain (splitEnv c k) 1024 3 2 =
      some ((utf8EncodeChar c).drop k, 3,
        [Event.recvCall 1024 ((utf8EncodeChar c).drop k)]) := by
  rw [show (3 : Nat) = 2 + 1 from rfl, drain_step_ready _ _ _ _ rfl,
    show (2 : Nat) = 1 + 1 from rfl, drain_step_idle _ _ _ _ rfl]
  simp [splitEnv]

theorem frag_search (c : Nat) : literalSearch [c] [c] = true := by
  simp [literalSearch]
  exact ⟨0, by omega, rfl⟩

theorem pass_decode_fail {σ : Type} (env : Env σ) (c : Client)
    (ar : List (List Nat × List Nat)) (pr : List (List Nat)) (df : Nat)
    (st : LoopSt) (s : σ) (s2 : σ) (bs : List Nat) (trd : List Event)
    (hsess : c.hasSession = true) (hclosed : env.closed s = false)
    (hw : (env.waitRecvReady
      (pymax0 (c.recv_timeout - (env.now s - st.wait_start_time))) s).1 = true)
    (hd : drain env c.recv_nbytes df
      (env.waitRecvReady
        (pymax0 (c.recv_timeout - (env.now s - st.wait_start_time))) s).2 =
      some (bs, s2, trd))
    (hdec : try_decode (st.recv_buffer ++ bs) = none) :
    loopPass env c ar pr df st s =
      .next { st with recv_buffer := st.recv_buffer ++ bs } s2
        (Event.waitCall
          (pymax0 (c.recv_timeout - (env.now s - st.wait_start_time)))
          true :: trd) := by
  simp [loopPass, hsess, hclosed, hw, hd, hdec]

theorem pass_prompt_ret {σ : Type} (env : Env σ) (c : Client)
    (ar : List (List Nat × List Nat)) (pr : List (List Nat)) (df : Nat)
    (st : LoopSt) (s : σ) (s2 : σ) (bs : List Nat) (trd : List Event)
    (d q : List Nat)
    (hsess : c.hasSession = true) (hclosed : env.closed s = false)
    (hw : (env.waitRecvReady
      (pymax0 (c.recv_timeout - (env.now s - st.wait_start_time))) s).1 = true)
    (hd : drain env c.recv_nbytes df
      (env.waitRecvReady
        (pymax0 (c.recv_timeout - (env.now s - st.wait_start_time))) s).2 =
      some (bs, s2, trd))
    (hdec : try_decode (st.recv_buffer ++ bs) = some d)
    (har : truthyStr
      (find_pattern env.search (ar.map Prod.fst) (st.text_buffer ++ d)) = none)
    (hpr : truthyStr (find_pattern env.search pr (st.text_buffer ++ d)) =
      some q) :
    loopPass env c ar pr df st s =
      .ret (st.text_archived ++ (st.text_buffer ++ d)) q s2
        ((Event.waitCall
            (pymax0 (c.recv_timeout - (env.now s - st.wait_start_time)))
            true :: trd)
          ++ (if c.hasObserver then [Event.observerCall d] else [])
          ++ [Event.decoded (st.recv_buffer ++ bs) d]) := by
  simp [loopPass, hsess, hclosed, hw, hd, hdec, har, hpr]

theorem frag_pass1 (c k : Nat)
    (hfail : utf8Decode? ((utf8EncodeChar c).take k) = none) :
    loopPass (splitEnv c k) (fragClient c) [] [[c]] 3 ⟨0, [], [], []⟩ 0 =
      .next ⟨0, (utf8EncodeChar c).take k, [], []⟩ 1
        [Event.waitCall 30 true,
         Event.recvCall 1024 ((utf8EncodeChar c).take k)] :=
  pass_decode_fail (splitEnv c k) (fragClient c) [] [[c]] 3 ⟨0, [], [], []⟩
    0 1 ((utf8EncodeChar c).take k)
    [Event.recvCall 1024 ((utf8EncodeChar c).take k)]
    rfl rfl rfl (frag_drain1 c k) hfail

theorem frag_pass2 (c k : Nat)
    (hok : utf8Decode? (utf8EncodeChar c) = some [c]) :
    loopPass (splitEnv c k) (fragClient c) [] [[c]] 3
        ⟨0, (utf8EncodeChar c).take k, [], []⟩ 1 =
      .ret [c] [c] 3
        [Event.waitCall 30 true,
         Event.recvCall 1024 ((utf8EncodeChar c).drop k),
         Event.decoded ((utf8EncodeChar c).take k
           ++ (utf8EncodeChar c).drop k) [c]] := by
  have h := pass_prompt_ret (splitEnv c k) (fragClient c) [] [[c]] 3
    ⟨0, (utf8EncodeChar c).take k, [], []⟩ 1 3
    ((utf8EncodeChar c).drop k)
    [Event.recvCall 1024 ((utf8EncodeChar c).drop k)] [c] [c]
    rfl rfl rfl (frag_drain2 c k)
    (by show utf8Decode? ((utf8EncodeChar c).take k
          ++ (utf8EncodeChar c).drop k) = some [c]
        rw [List.take_append_drop]
        exact hok)
    rfl
    (by show truthyStr (find_pattern literalSearch [[c]] ([] ++ [c])) =
          some [c]
        simp [find_pattern, truthyStr, List.find?, frag_search c])
  simpa using h


/-- C3: for every multi-byte encoded character whose bytes are split across
two successive reads at any interior point `k`, the strict decode of the
first fragment returns no result, the pass that read it leaves the raw
buffer holding exactly that fragment with the text buffer untouched, and
once the remaining bytes arrive the concatenated buffer strict-decodes so
that the final returned text is exactly the one character (no replacement
characters introduced). -/
theorem decode_fragmentation (c k : Nat) (hv : ValidScalar c)
    (_hmb : 2 ≤ (utf8EncodeChar c).length) (hk0 : 0 < k)
    (hk : k < (utf8EncodeChar c).length) :
    utf8Decode? ((utf8EncodeChar c).take k) = none ∧
    utf8Decode? (utf8EncodeChar c) = some [c] ∧
    passStates (splitEnv c k) (fragClient c) [] [[c]] 3 1 ⟨0, [], [], []⟩ 0 =
      some (⟨0, (utf8EncodeChar c).take k, [], []⟩, 1,
        [Event.waitCall 30 true,
         Event.recvCall 1024 ((utf8EncodeChar c).take k)]) ∧
    recv_text (splitEnv c k) (fragClient c) none none 3 3 0 =
      (.ok [c] (some [c]), 3,
        [Event.waitCall 30 true,
         Event.recvCall 1024 ((utf8EncodeChar c).take k),
         Event.waitCall 30 true,
         Event.recvCall 1024 ((utf8EncodeChar c).drop k),
         Event.decoded ((utf8EncodeChar c).take k ++ (utf8EncodeChar c).drop k)
           [c]]) := by
  have hfail := utf8Decode?_take_enc c k hv hk0 hk
  have hok := utf8Decode?_encChar c hv
  have hp1 := frag_pass1 c k hfail
  have hp2 := frag_pass2 c k hok
  refine ⟨hfail, hok, ?_, ?_⟩
  · rw [show (1 : Nat) = 0 + 1 from rfl]
    simp [passStates, hp1]
  · have e0 : recv_text (splitEnv c k) (fragClient c) none none 3 3 0 =
        runLoop (splitEnv c k) (fragClient c) [] [[c]] 3 3
          ⟨0, [], [], []⟩ 0 := rfl
    rw [e0, show (3 : Nat) = 2 + 1 from rfl,
      runLoop_step_next _ _ _ _ _ _ _ _ _ _ hp1 2,
      show (2 : Nat) = 1 + 1 from rfl,
      runLoop_step_ret _ _ _ _ _ _ _ _ _ _ _ hp2 1]
    simp

/-- Witness for C3: the three-byte character `U+3042` split after its
second byte. -/
theorem decode_fragmentation_witness :
    utf8Decode? ((utf8EncodeChar 0x3042).take 2) = none ∧
    utf8Decode? (utf8EncodeChar 0x3042) = some [0x3042] ∧
    passStates (splitEnv 0x3042 2) (fragClient 0x3042) [] [[0x3042]] 3 1
        ⟨0, [], [], []⟩ 0 =
      some (⟨0, (utf8EncodeChar 0x3042).take 2, [], []⟩, 1,
        [Event.waitCall 30 true,
         Event.recvCall 1024 ((utf8EncodeChar 0x3042).take 2)]) ∧
    recv_text (splitEnv 0x3042 2) (fragClient 0x3042) none none 3 3 0 =
      (.ok [0x3042] (some [0x3042]), 3,
        [Event.waitCall 30 true,
         Event.recvCall 1024 ((utf8EncodeChar 0x3042).take 2),
         Event.waitCall 30 true,
         Event.recvCall 1024 ((utf8EncodeChar 0x3042).drop 2),
         Event.decoded ((utf8EncodeChar 0x3042).take 2
           ++ (utf8EncodeChar 0x3042).drop 2) [0x3042]]) :=
  decode_fragmentation 0x3042 2 (by decide) (by decide) (by decide)
    (by decide)

/-! ### The per-call buffer invariant (C9) -/

/-- One continuing pass extends `text_archived ++ text_buffer` by exactly
the text it strict-decoded, and keeps `recv_buffer` equal to the received
bytes not consumed by a successful strict decode. -/
theorem pass_buffer_invariant {σ : Type} (env : Env σ) (c : Client)
    (ar : List (List Nat × List Nat)) (pr : List (List Nat)) (df : Nat)
    (st : LoopSt) (s : σ) (st' : LoopSt) (s' : σ) (tr : List Event)
    (h : loopPass env c ar pr df st s = .next st' s' tr) :
    st'.text_archived ++ st'.text_buffer =
      (st.text_archived ++ st.text_buffer) ++ decodedTextOf tr ∧
    decodedBytesOf tr ++ st'.recv_buffer = st.recv_buffer ++ recvBytesOf tr ∧
    (∀ bs t, Event.decoded bs t ∈ tr → try_decode bs = some t) := by
  simp only [loopPass] at h
  split at h
  · injection h
  · split at h
    · injection h
    · split at h
      · injection h
      · rename_i bs s2 trd heq
        obtain ⟨hrb, hdt, hdb, hev⟩ := drain_spec env c.recv_nbytes df _ _ _ _ heq
        have hnd : ∀ bs' t', Event.decoded bs' t' ∉ trd := by
          intro bs' t' hm
          obtain ⟨n, bb, he⟩ := hev _ hm
          simp at he
        split at h
        · rename_i heqd
          injection h with h1 h2 h3
          subst h1 h3
          refine ⟨?_, ?_, ?_⟩
          · simp [decodedTextOf_cons, hdt]
          · simp [decodedBytesOf_cons, recvBytesOf_cons, hdb, hrb]
          · intro bs' t' hm
            rcases List.mem_cons.mp hm with hm | hm
            · simp at hm
            · exact absurd hm (hnd bs' t')
        · rename_i d heqd
          split at h
          · rename_i k heqk
            split at h
            · injection h
            · rename_i reply heqr
              split at h
              · injection h
              · rename_i acc s3 trs heqs
                have htrs : trs = [Event.sendCall (utf8Encode reply)
                    (env.send (utf8Encode reply) s2).1] := by
                  simp only [send_text] at heqs
                  split at heqs
                  · injection heqs with g1 g2 g3
                    exact g3.symm
                  · injection heqs
                subst htrs
                injection h with h1 h2 h3
                subst h1 h3
                refine ⟨?_, ?_, ?_⟩
                · simp [decodedTextOf_append, decodedTextOf_cons, hdt]
                  split <;> simp [decodedTextOf, decodedBytesOf, recvBytesOf]
                · simp [decodedBytesOf_append, decodedBytesOf_cons,
                    recvBytesOf_append, recvBytesOf_cons, hdb, hrb]
                  split <;> simp [decodedTextOf, decodedBytesOf, recvBytesOf]
                · intro bs' t' hm
                  simp only [List.cons_append, List.append_assoc,
                    List.mem_cons, List.mem_append] at hm
                  rcases hm with hm | hm
                  · simp at hm
                  · rcases hm with hm | hm
                    · exact absurd hm (hnd bs' t')
                    · rcases hm with hm | hm
                      · split at hm <;> simp_all
                      · rcases hm with hm | hm
                        · simp at hm
                          obtain ⟨hb, ht⟩ := hm
                          subst hb ht
                          exact heqd
                        · simp at hm
          · split at h
            · injection h
            · injection h with h1 h2 h3
              subst h1 h3
              refine ⟨?_, ?_, ?_⟩
              · simp [decodedTextOf_append, decodedTextOf_cons, hdt]
                split <;> simp [decodedTextOf, decodedBytesOf, recvBytesOf]
              · simp [decodedBytesOf_append, decodedBytesOf_cons,
                  recvBytesOf_append, recvBytesOf_cons, hdb, hrb]
                split <;> simp [decodedTextOf, decodedBytesOf, recvBytesOf]
              · intro bs' t' hm
                simp only [List.cons_append, List.append_assoc,
                  List.mem_cons, List.mem_append] at hm
                rcases hm with hm | hm
                · simp at hm
                · rcases hm with hm | hm
                  · exact absurd hm (hnd bs' t')
                  · rcases hm with hm | hm
                    · split at hm <;> simp_all
                    · simp at hm
                      obtain ⟨hb, ht⟩ := hm
                      subst hb ht
                      exact heqd

/-- C9: at every pass boundary of the `recv_text` loop (any number of
completed passes from the fresh per-call state), `text_archived ++
text_buffer` equals the concatenation of all text successfully
strict-decoded so far, and `recv_buffer` holds exactly the received bytes
not yet part of a successful strict decode: decoded bytes followed by
`recv_buffer` reproduce all bytes read, and every recorded decode really
is a successful strict decode. -/
theorem buffer_invariant {σ : Type} (env : Env σ) (c : Client)
    (ar : List (List Nat × List Nat)) (pr : List (List Nat)) (df : Nat)
    (t0 : ℤ) (s : σ) (n : Nat) (st' : LoopSt) (s' : σ) (tr : List Event)
    (h : passStates env c ar pr df n ⟨t0, [], [], []⟩ s = some (st', s', tr)) :
    st'.text_archived ++ st'.text_buffer = decodedTextOf tr ∧
    decodedBytesOf tr ++ st'.recv_buffer = recvBytesOf tr ∧
    (∀ bs t, Event.decoded bs t ∈ tr → try_decode bs = some t) := by
  induction n generalizing st' s' tr with
  | zero =>
    simp only [passStates, Option.some.injEq, Prod.mk.injEq] at h
    obtain ⟨h1, h2, h3⟩ := h
    subst h1 h3
    simp [decodedTextOf, decodedBytesOf, recvBytesOf]
  | succ m ih =>
    simp only [passStates] at h
    cases hp : passStates env c ar pr df m ⟨t0, [], [], []⟩ s with
    | none => rw [hp] at h; exact absurd h (by simp)
    | some x =>
      obtain ⟨st1, s1, tr1⟩ := x
      rw [hp] at h
      dsimp only at h
      cases hl : loopPass env c ar pr df st1 s1 with
      | next st2 s2 tr2 =>
        rw [hl] at h
        simp only [Option.some.injEq, Prod.mk.injEq] at h
        obtain ⟨h1, h2, h3⟩ := h
        subst h1 h3
        obtain ⟨i1, i2, i3⟩ := ih st1 s1 tr1 hp
        obtain ⟨p1, p2, p3⟩ := pass_buffer_invariant env c ar pr df st1 s1
          st2 s2 tr2 hl
        refine ⟨?_, ?_, ?_⟩
        · rw [decodedTextOf_append, p1, i1]
        · rw [decodedBytesOf_append, recvBytesOf_append, List.append_assoc,
            p2, ← List.append_assoc, i2]
        · intro bs t hm
          rcases List.mem_append.mp hm with hm | hm
          · exact i3 bs t hm
          · exact p3 bs t hm
      | broke st2 s2 tr2 => rw [hl] at h; exact absurd h (by simp)
      | ret a b s2 tr2 => rw [hl] at h; exact absurd h (by simp)
      | raised s2 tr2 => rw [hl] at h; exact absurd h (by simp)
      | nofuel => rw [hl] at h; exact absurd h (by simp)

/-- Witness for C9: one pass that decoded the byte `p` with no pattern
configured. -/
theorem buffer_invariant_witness :
    (⟨0, [], [0x70], []⟩ : LoopSt).text_archived
        ++ (⟨0, [], [0x70], []⟩ : LoopSt).text_buffer =
      decodedTextOf [Event.waitCall 30 true, Event.recvCall 1024 [0x70],
        Event.decoded [0x70] [0x70]] :=
  (buffer_invariant emptyPatternEnv defaultClient [] [] 2 0 0 1
    ⟨0, [], [0x70], []⟩ 1
    [Event.waitCall 30 true, Event.recvCall 1024 [0x70],
      Event.decoded [0x70] [0x70]] (by decide)).1

/-- C1: with the auto-reply map sending `Password:` to `secret` plus newline
and prompt list `prompt>`, against a channel that delivers the bytes of
`Password:` and only after the reply is written those of `prompt>`,
`recv_text` returns the pair `("Password:prompt>", "prompt>")` and the
channel's write operation is invoked exactly once, with the UTF-8 encoding
of the reply. -/
theorem auto_reply_round_trip :
    (recv_text roundTripEnv roundTripClient none none 5 5 0).1 =
      .ok (passwordText ++ promptText) (some promptText) ∧
    sendsOf (recv_text roundTripEnv roundTripClient none none 5 5 0).2.2 =
      [utf8Encode secretText] := by
  decide

/-- C6: with `recv_nbytes ≤ 0` or `recv_timeout ≤ 0`, `recv_text` raises
`ValueError` before performing any channel operation: the world is
untouched and the trace is empty (no readiness poll, read, write or
observer invocation). -/
theorem invalid_config_fails_fast {σ : Type} (env : Env σ) (c : Client)
    (a : Option (List (List Nat × List Nat))) (p : Option (List (List Nat)))
    (fuel df : Nat) (s : σ)
    (h : c.recv_nbytes ≤ 0 ∨ c.recv_timeout ≤ 0) :
    recv_text env c a p fuel df s = (.valueError, s, []) := by
  unfold recv_text
  rcases h with h | h
  · rw [if_pos h]
  · by_cases h2 : c.recv_nbytes ≤ 0
    · rw [if_pos h2]
    · rw [if_neg h2, if_pos h]

/-- Witness for C6: a default client with `recv_nbytes = 0`. -/
theorem invalid_config_fails_fast_witness :
    recv_text closedChannelEnv { defaultClient with recv_nbytes := 0 }
        none none 3 3 () = (.valueError, (), []) :=
  invalid_config_fails_fast closedChannelEnv
    { defaultClient with recv_nbytes := 0 } none none 3 3 ()
    (Or.inl (by decide))

/-- C7: if the channel reports closed at the first loop pass (and hence no
data has been delivered), `recv_text` returns `("", none)` without raising,
with no channel operation performed. -/
theorem closed_before_data {σ : Type} (env : Env σ) (c : Client)
    (a : Option (List (List Nat × List Nat))) (p : Option (List (List Nat)))
    (fuel df : Nat) (s : σ)
    (hn : ¬ c.recv_nbytes ≤ 0) (ht : ¬ c.recv_timeout ≤ 0)
    (hcl : env.closed s = true) :
    recv_text env c a p (fuel + 1) df s = (.ok [] none, s, []) := by
  simp [recv_text, runLoop, loopPass, finishRecv, hn, ht, hcl]

/-- Witness for C7: the default client against a closed channel. -/
theorem closed_before_data_witness :
    recv_text closedChannelEnv defaultClient none none 4 3 () =
      (.ok [] none, (), []) :=
  closed_before_data closedChannelEnv defaultClient none none 3 3 ()
    (by decide) (by decide) rfl

/-- C8: `send_text` raises "not connected" exactly when no channel is open;
with an open channel it encodes the text with the configured encoding,
hands the bytes to the channel's write operation, and returns exactly the
byte count the channel reports as accepted. -/
theorem send_text_contract {σ : Type} (env : Env σ) (c : Client)
    (text : List Nat) (s : σ) :
    (send_text env c text s = .notConnected ↔ c.hasSession = false) ∧
    (c.hasSession = true →
      send_text env c text s =
        .sent (env.send (utf8Encode text) s).1 (env.send (utf8Encode text) s).2
          [Event.sendCall (utf8Encode text) (env.send (utf8Encode text) s).1]) := by
  constructor
  · unfold send_text
    cases h : c.hasSession <;> simp [h]
  · intro h
    simp [send_text, h]

/-- Witness for C8, at a client without a session and one with. -/
theorem send_text_contract_witness :
    (send_text closedChannelEnv { defaultClient with hasSession := false }
        secretText () = .notConnected) ∧
    (send_text silentChannelEnv defaultClient secretText () =
      .sent 0 () [Event.sendCall (utf8Encode secretText) 0]) := by
  constructor
  · exact (send_text_contract closedChannelEnv
      { defaultClient with hasSession := false } secretText ()).1.mpr rfl
  · exact (send_text_contract silentChannelEnv defaultClient
      secretText ()).2 rfl

/-- C10: with a valid configuration but no session ever opened
(`_session is None`), `recv_text` returns `("", none)` immediately, with no
channel operation and no observer call, while `send_text` raises in the
same state. -/
theorem no_session_recv_vs_send {σ : Type} (env : Env σ) (c : Client)
    (a : Option (List (List Nat × List Nat))) (p : Option (List (List Nat)))
    (fuel df : Nat) (s : σ) (text : List Nat)
    (hn : ¬ c.recv_nbytes ≤ 0) (ht : ¬ c.recv_timeout ≤ 0)
    (hs : c.hasSession = false) :
    recv_text env c a p (fuel + 1) df s = (.ok [] none, s, []) ∧
    send_text env c text s = .notConnected := by
  constructor
  · simp [recv_text, runLoop, loopPass, finishRecv, hn, ht, hs]
  · simp [send_text, hs]

/-- Witness for C10: a sessionless client against an otherwise silent
world. -/
theorem no_session_recv_vs_send_witness :
    recv_text silentChannelEnv { defaultClient with hasSession := false }
        none none 4 3 () = (.ok [] none, (), []) ∧
    send_text silentChannelEnv { defaultClient with hasSession := false }
        secretText () = .notConnected :=
  no_session_recv_vs_send silentChannelEnv
    { defaultClient with hasSession := false } none none 3 3 () secretText
    (by decide) (by decide) rfl

/-- C4: whenever the loop ends by timeout or channel close (a `broke` pass)
with a non-empty raw buffer, `recv_text`'s epilogue decodes that remainder
with the replacement strategy, appends it to the returned text, and invokes
the partial-text observer with exactly that leniently decoded remainder
when one is configured. -/
theorem final_flush_lenient {σ : Type} (env : Env σ) (c : Client)
    (ar : List (List Nat × List Nat)) (pr : List (List Nat))
    (df fuel : Nat) (st : LoopSt) (s : σ) (st' : LoopSt) (s' : σ)
    (tr : List Event)
    (h : loopPass env c ar pr df st s = .broke st' s' tr)
    (hne : st'.recv_buffer ≠ []) :
    runLoop env c ar pr df (fuel + 1) st s =
      (.ok (st'.text_archived ++ st'.text_buffer
          ++ utf8DecodeReplace st'.recv_buffer) none,
        s',
        tr ++ if c.hasObserver then
          [Event.observerCall (utf8DecodeReplace st'.recv_buffer)] else []) := by
  simp [runLoop, h, finishRecv, hne]

/-- Witness for C4: a closed channel with an undecodable byte `0xFF` left
in the raw buffer and an observer configured. -/
theorem final_flush_lenient_witness :
    runLoop closedChannelEnv { defaultClient with hasObserver := true }
        [] [] 1 1 ⟨0, [0xFF], [], []⟩ () =
      (.ok [0xFFFD] none, (), [Event.observerCall [0xFFFD]]) := by
  have h := final_flush_lenient closedChannelEnv
    { defaultClient with hasObserver := true } [] [] 1 0
    ⟨0, [0xFF], [], []⟩ () ⟨0, [0xFF], [], []⟩ () [] (by decide) (by decide)
  simpa using h

end Isshc
